import Mathlib

/-!
Shallow embedding of `supervik/crypto-exchanges-latencies-test`.

Two source files are modelled:

* `src/ping_url.py` — a command-line utility that pings a URL `n` times
  and prints summary statistics of the response times (namespace `PingUrl`);
* `src/latencies_test.py` — a Hummingbot strategy script that places and
  cancels orders to measure order-lifecycle latency, logging timestamped
  events to a CSV file (namespace `LatencyTest`).

Durations and timestamps are modelled as exact rationals (`ℚ`); wall-clock
millisecond timestamps written to the CSV are integers (`ℤ`).  Network and
exchange collaborators (the `requests` library, the Hummingbot connector and
budget checker) are opaque in the source and enter the model as function
parameters.
-/

namespace PingUrl

/-- Outcome of one `requests.get(url)` attempt: either a `RequestException`
carrying a message, or a clean return after `elapsed_ms` milliseconds
(the value of `(time.time() - start_time) * 1000`). -/
inductive AttemptResult where
  | failure (msg : String)
  | success (elapsed_ms : ℚ)
deriving DecidableEq, Repr

/-- One line printed to the console by the sampling loop: either the
`Error during request: ...` line of a failed attempt, or the
`...% done` progress line (carrying the exact percentage the format
string renders). -/
inductive OutLine where
  | errorLine (msg : String)
  | progressLine (pct : ℚ)
deriving DecidableEq, Repr

/-- Accumulator of the sampling loop: collected response times, console
output so far, and the number of HTTP GET requests issued so far. -/
structure LoopAcc where
  times : List ℚ
  output : List OutLine
  gets : ℕ
deriving DecidableEq, Repr

/-- One iteration `i` of the `for i in range(n)` loop of
`get_response_times_using_time`: issue the GET (one invocation of the
target); on a `RequestException` print the error line and `continue`
(skipping both the append and the progress line); on success append the
elapsed time and print the progress line `((i + 1) / n) * 100`. -/
def pingIteration (attempt : ℕ → AttemptResult) (n : ℕ) (acc : LoopAcc)
    (i : ℕ) : LoopAcc :=
  match attempt i with
  | .failure msg =>
      { acc with output := acc.output ++ [.errorLine msg], gets := acc.gets + 1 }
  | .success t =>
      { times := acc.times ++ [t],
        output := acc.output ++ [.progressLine (((i + 1 : ℚ) / (n : ℚ)) * 100)],
        gets := acc.gets + 1 }

/-- Model of `get_response_times_using_time(url, n)` from `src/ping_url.py`: pings
the URL `n` times and returns the list of response times of the successful
attempts, together with the console output and the number of GETs issued.
The behaviour of the network on attempt `i` is the oracle `attempt i`. -/
def get_response_times_using_time (attempt : ℕ → AttemptResult) (n : ℕ) :
    LoopAcc :=
  (List.range n).foldl (pingIteration attempt n) ⟨[], [], 0⟩

/-- Whether an attempt result is a success. -/
def isSuccess : AttemptResult → Bool
  | .success _ => true
  | .failure _ => false

/-- Whether a console line is a progress line. -/
def isProgress : OutLine → Bool
  | .progressLine _ => true
  | .errorLine _ => false

/-- Whether a console line is an error line. -/
def isError : OutLine → Bool
  | .progressLine _ => false
  | .errorLine _ => true

/-- The statistics computed and printed by `print_statistics`, together
with the header data (`url` and `n`) interpolated into the report. -/
structure Stats where
  url : String
  n : ℕ
  average_time : ℚ
  median_time : ℚ
  min_time : ℚ
  max_time : ℚ
deriving DecidableEq, Repr

/-- Python's `statistics.median(data)`: sort the data; for odd length
return the middle element, for even length the mean of the two middle
elements; raise `StatisticsError` on empty data.  Out-of-range `getD`
defaults can never be hit for nonempty data. -/
def pymedian (data : List ℚ) : Except String ℚ :=
  let s := data.mergeSort (· ≤ ·)
  let m := data.length
  if m = 0 then .error "StatisticsError: no median for empty data"
  else if m % 2 = 1 then .ok (s.getD (m / 2) 0)
  else .ok ((s.getD (m / 2 - 1) 0 + s.getD (m / 2) 0) / 2)

/-- Model of `print_statistics(times, url, n)` from `src/ping_url.py`.  The Python
body evaluates `sum(times) / len(times)` first: on an empty list this
divides by zero and the function raises.  Otherwise `min`, `max` and
`statistics.median` are all defined, and the report is printed. -/
def print_statistics (times : List ℚ) (url : String) (n : ℕ) :
    Except String Stats :=
  match times with
  | [] => .error "ZeroDivisionError: division by zero"
  | t :: ts =>
      let average_time := times.sum / (times.length : ℚ)
      let min_time := ts.foldl min t
      let max_time := ts.foldl max t
      match pymedian times with
      | .error e => .error e
      | .ok median_time =>
          .ok ⟨url, n, average_time, median_time, min_time, max_time⟩

/-- The usage string printed on a wrong argument count. -/
def usageText : String := "Usage: python ping_url.py <URL>"

/-- Observable outcome of running `python ping_url.py` with a given
argument list. -/
structure MainOutcome where
  usagePrinted : Bool
  exitCode : Option ℕ
  gets : ℕ
  sampledUrl : Option String
  report : Option (Except String Stats)
deriving Repr

/-- The `__main__` block of `src/ping_url.py`.  `args` is the argument
list after the program name, so `sys.argv = "ping_url.py" :: args` and the
guard `len(sys.argv) != 2` is `args.length + 1 ≠ 2`.  On a wrong count the
script prints the usage text and exits with status 1 before any request;
otherwise it samples the single URL with `N = 10` and prints statistics. -/
def pymain (attempt : ℕ → AttemptResult) (args : List String) : MainOutcome :=
  if 1 + args.length ≠ 2 then
    { usagePrinted := true, exitCode := some 1, gets := 0,
      sampledUrl := none, report := none }
  else
    let url := args.getD 0 ""
    let acc := get_response_times_using_time attempt 10
    { usagePrinted := false, exitCode := none, gets := acc.gets,
      sampledUrl := some url,
      report := some (print_statistics acc.times url 10) }

/-- The "statistical median" of the spec: the data arranged in increasing
order has its middle element as median for odd length, and the mean of the
two middle elements for even length. -/
def specMedian (data : List ℚ) : ℚ :=
  let s := data.mergeSort (· ≤ ·)
  if data.length % 2 = 1 then s.getD (data.length / 2) 0
  else (s.getD (data.length / 2 - 1) 0 + s.getD (data.length / 2) 0) / 2

/-- The failing network of the fully-failed-batch scenario: every GET
raises a `RequestException`. -/
def alwaysFails : ℕ → AttemptResult :=
  fun _ => .failure "Error during request: connection error"

end PingUrl

namespace LatencyTest

/-- Hummingbot's `TradeType` (the two values the script uses). -/
inductive TradeType where
  | BUY
  | SELL
deriving DecidableEq, Repr

/-- Hummingbot's `OrderType` (the two values the script uses). -/
inductive OrderType where
  | LIMIT
  | MARKET
deriving DecidableEq, Repr

/-- The `OrderState` enum of `src/latencies_test.py` — pure labels whose
names are written to the CSV. -/
inductive OrderState where
  | PENDING_CREATE
  | CREATED
  | PENDING_CANCEL
  | CANCELED
  | PENDING_EXECUTE
  | EXECUTED
deriving DecidableEq, Repr

/-- Python's `OrderState.<member>.name`. -/
def OrderState.pyname : OrderState → String
  | .PENDING_CREATE => "PENDING_CREATE"
  | .CREATED => "CREATED"
  | .PENDING_CANCEL => "PENDING_CANCEL"
  | .CANCELED => "CANCELED"
  | .PENDING_EXECUTE => "PENDING_EXECUTE"
  | .EXECUTED => "EXECUTED"

/-- One line of the CSV file: the header `Timestamp,Order_ID,Status`
written by `writeheader`, or one data row written by `writerow` (a data
row starts with an integer timestamp, so it is never the header line). -/
inductive CsvLine where
  | headerLine
  | dataRow (timestamp : ℤ) (order_id : String) (status : String)
deriving DecidableEq, Repr

/-- Whether a CSV line is the header. -/
def isHeader : CsvLine → Bool
  | .headerLine => true
  | .dataRow _ _ _ => false

/-- Model of `save_to_csv(self, timestamp, order_id, status)` acting on the current
file contents: `none` models `os.path.exists(self.filename)` being false
(append mode then creates the file and, `file_exists` being false,
`writeheader` runs before the data row); `some lines` models an existing
file, to which append mode adds exactly one data row and no header. -/
def save_to_csv (file : Option (List CsvLine)) (timestamp : ℤ)
    (order_id status : String) : List CsvLine :=
  match file with
  | none => [CsvLine.headerLine, CsvLine.dataRow timestamp order_id status]
  | some lines => lines ++ [CsvLine.dataRow timestamp order_id status]

/-- Hummingbot's `OrderCandidate` (the fields the script constructs and
reads). -/
structure OrderCandidate where
  trading_pair : String
  is_maker : Bool
  order_type : OrderType
  order_side : TradeType
  amount : ℚ
  price : ℚ
deriving DecidableEq, Repr

/-- The slice of the exchange connector the script consults, as opaque
data: `get_price(pair, False)` (best bid) and `get_price(pair, True)`
(best ask), `get_balance` of the base and quote assets of the pair, and
the budget checker's `adjust_candidate` function. -/
structure Connector where
  price_bid : ℚ
  price_ask : ℚ
  base_balance : ℚ
  quote_balance : ℚ
  adjust_candidate : OrderCandidate → OrderCandidate

/-- The class-level configuration parameters of `LatencyTest`. -/
structure StratConfig where
  trading_pair : String
  order_amount : ℚ
  order_spread : ℚ
  test_create_latency : Bool
  test_execute_latency : Bool
  create_interval : ℚ
  execute_interval : ℚ
  delay : ℚ

/-- The configuration values in the source: pair `BNB-ETH`,
`order_amount = Decimal("0.01")`, `order_spread = 5`, both latency tests
enabled, `create_interval = 30`, `execute_interval = 300`, `delay = 5`. -/
def defaultConfig : StratConfig :=
  { trading_pair := "BNB-ETH", order_amount := 1 / 100, order_spread := 5,
    test_create_latency := true, test_execute_latency := true,
    create_interval := 30, execute_interval := 300, delay := 5 }

/-- The mutable runtime fields of the strategy. -/
structure StratState where
  create_timestamp : ℚ
  execute_timestamp : ℚ
  delay_timestamp : ℚ
  order_filled : Bool
deriving DecidableEq, Repr

/-- The class-level initial values: all timestamps 0, `order_filled`
false. -/
def initialState : StratState :=
  { create_timestamp := 0, execute_timestamp := 0, delay_timestamp := 0,
    order_filled := false }

/-- One externally visible effect of a callback: a CSV row, a cancel
request, an order submission via `self.buy` / `self.sell`, or a
`log_with_clock` info line. -/
inductive Action where
  | csvWrite (timestamp : ℤ) (order_id : String) (status : String)
  | cancelOrder (trading_pair : String) (order_id : String)
  | sendBuy (c : OrderCandidate)
  | sendSell (c : OrderCandidate)
  | logInfo (msg : String)
deriving DecidableEq, Repr

/-- The submission action for a candidate: `self.buy(...)` for a BUY
candidate, `self.sell(...)` for a SELL candidate. -/
def sendAction (c : OrderCandidate) : Action :=
  match c.order_side with
  | .BUY => .sendBuy c
  | .SELL => .sendSell c

/-- Model of `get_order_side(self)`: BUY when the base balance valued in quote
units (at the bid price, `get_price(pair, False)`) is strictly below the
quote balance, SELL otherwise. -/
def get_order_side (conn : Connector) : TradeType :=
  let base_balance_in_quote := conn.base_balance * conn.price_bid
  if base_balance_in_quote < conn.quote_balance then TradeType.BUY
  else TradeType.SELL

/-- The `OrderCandidate` that `place_order` constructs before budget
adjustment: limit orders are priced a spread away from the current price,
market orders at the current price; a BUY uses the bid price and shrinks
it, a SELL uses the ask price and enlarges it. -/
def order_candidate (cfg : StratConfig) (conn : Connector)
    (is_maker : Bool) : OrderCandidate :=
  let order_side := get_order_side conn
  let order_type := if is_maker then OrderType.LIMIT else OrderType.MARKET
  let current_price := match order_side with
    | .BUY => conn.price_bid
    | .SELL => conn.price_ask
  let price_multiplier : ℚ := match order_side with
    | .BUY => 1 - cfg.order_spread / 100
    | .SELL => 1 + cfg.order_spread / 100
  let order_price := if is_maker then current_price * price_multiplier
    else current_price
  { trading_pair := cfg.trading_pair, is_maker := is_maker,
    order_type := order_type, order_side := order_side,
    amount := cfg.order_amount, price := order_price }

/-- Model of `send_order_to_exchange(self, candidate)`: submit via `self.buy` or
`self.sell` according to the side, then log the pre-transmission
timestamp with status `PENDING_CREATE` for a limit order and
`PENDING_EXECUTE` for a market order.  `new_order_id` is the identifier
the framework returns from `self.buy` / `self.sell`. -/
def send_order_to_exchange (now_ms : ℤ) (new_order_id : String)
    (candidate : OrderCandidate) : List Action :=
  let status := if candidate.order_type = OrderType.LIMIT
    then OrderState.PENDING_CREATE else OrderState.PENDING_EXECUTE
  [sendAction candidate, Action.csvWrite now_ms new_order_id status.pyname]

/-- Model of `place_order(self, is_maker)`: build the candidate, let the budget
checker adjust it, and send the adjusted candidate unless its amount was
adjusted to zero, in which case only an informational line is logged. -/
def place_order (cfg : StratConfig) (conn : Connector) (now_ms : ℤ)
    (new_order_id : String) (is_maker : Bool) : List Action :=
  let candidate := order_candidate cfg conn is_maker
  let candidate_adjusted := conn.adjust_candidate candidate
  if candidate_adjusted.amount ≠ 0 then
    send_order_to_exchange now_ms new_order_id candidate_adjusted
  else
    [Action.logInfo "Not enough funds or amount is below threshold"]

/-- One active order as returned by `get_active_orders`. -/
structure ActiveOrder where
  client_order_id : String
  trading_pair : String
deriving DecidableEq, Repr

/-- The environment a single `on_tick` call observes: the framework's
`current_timestamp` (seconds), the wall clock `timestamp_now`
(milliseconds), the active orders, the connector, and the order id the
framework would assign to a newly submitted order. -/
structure TickEnv where
  current_timestamp : ℚ
  now_ms : ℤ
  active_orders : List ActiveOrder
  conn : Connector
  new_order_id : String

/-- Model of `cancel_all_orders(self)`: for each active order, log a
`PENDING_CANCEL` row and issue the cancel. -/
def cancel_all_orders (now_ms : ℤ) (orders : List ActiveOrder) :
    List Action :=
  orders.flatMap (fun o =>
    [Action.csvWrite now_ms o.client_order_id OrderState.PENDING_CANCEL.pyname,
     Action.cancelOrder o.trading_pair o.client_order_id])

/-- The first statement of `on_tick`: initialize `execute_timestamp` on
the first tick (`if not self.execute_timestamp`). -/
def initExec (cfg : StratConfig) (env : TickEnv) (s : StratState) :
    StratState :=
  if s.execute_timestamp = 0 then
    { s with execute_timestamp := env.current_timestamp + cfg.execute_interval }
  else s

/-- Model of `on_tick(self)`: after initializing `execute_timestamp` on the first
tick, return immediately inside the delay window; else cancel all active
orders (setting a new delay window) and return; else place a market order
when the execute interval has elapsed (resetting `order_filled`); else
place a limit order when the create interval has elapsed. -/
def on_tick (cfg : StratConfig) (env : TickEnv) (s : StratState) :
    StratState × List Action :=
  let s1 := initExec cfg env s
  if env.current_timestamp < s1.delay_timestamp then (s1, [])
  else if env.active_orders ≠ [] then
    ({ s1 with delay_timestamp := env.current_timestamp + cfg.delay },
     cancel_all_orders env.now_ms env.active_orders)
  else if cfg.test_execute_latency = true ∧
      s1.execute_timestamp < env.current_timestamp then
    ({ s1 with delay_timestamp := env.current_timestamp + cfg.delay,
               execute_timestamp := env.current_timestamp + cfg.execute_interval,
               order_filled := false },
     place_order cfg env.conn env.now_ms env.new_order_id false)
  else if cfg.test_create_latency = true ∧
      s1.create_timestamp < env.current_timestamp then
    ({ s1 with delay_timestamp := env.current_timestamp + cfg.delay,
               create_timestamp := env.current_timestamp + cfg.create_interval },
     place_order cfg env.conn env.now_ms env.new_order_id true)
  else (s1, [])

/-- The branch condition under which `on_tick` places a market order (the
only branch that writes `order_filled := False`): not inside the delay
window, no active orders, execution-latency testing enabled, and the
execute interval elapsed — all evaluated after the first-tick
initialization of `execute_timestamp`. -/
def marketBranchTaken (cfg : StratConfig) (env : TickEnv)
    (s : StratState) : Prop :=
  ¬ env.current_timestamp < (initExec cfg env s).delay_timestamp ∧
  env.active_orders = [] ∧
  cfg.test_execute_latency = true ∧
  (initExec cfg env s).execute_timestamp < env.current_timestamp

/-- Model of `did_fill_order(self, event)`: log an `EXECUTED` row only when
`order_filled` is still false, then set the flag. -/
def did_fill_order (now_ms : ℤ) (order_id : String) (s : StratState) :
    StratState × List Action :=
  if s.order_filled = false then
    ({ s with order_filled := true },
     [Action.csvWrite now_ms order_id OrderState.EXECUTED.pyname])
  else (s, [])

/-- Model of `did_create_buy_order(self, event)`. -/
def did_create_buy_order (now_ms : ℤ) (order_id : String) (s : StratState) :
    StratState × List Action :=
  (s, [Action.csvWrite now_ms order_id OrderState.CREATED.pyname])

/-- Model of `did_create_sell_order(self, event)`. -/
def did_create_sell_order (now_ms : ℤ) (order_id : String) (s : StratState) :
    StratState × List Action :=
  (s, [Action.csvWrite now_ms order_id OrderState.CREATED.pyname])

/-- Model of `did_cancel_order(self, event)`. -/
def did_cancel_order (now_ms : ℤ) (order_id : String) (s : StratState) :
    StratState × List Action :=
  (s, [Action.csvWrite now_ms order_id OrderState.CANCELED.pyname])

/-- One framework callback delivered to the strategy. -/
inductive Event where
  | tick (env : TickEnv)
  | createdBuy (now_ms : ℤ) (order_id : String)
  | createdSell (now_ms : ℤ) (order_id : String)
  | cancelled (now_ms : ℤ) (order_id : String)
  | filled (now_ms : ℤ) (order_id : String)

/-- Dispatch one callback to its handler. -/
def step (cfg : StratConfig) (s : StratState) :
    Event → StratState × List Action
  | .tick env => on_tick cfg env s
  | .createdBuy n oid => did_create_buy_order n oid s
  | .createdSell n oid => did_create_sell_order n oid s
  | .cancelled n oid => did_cancel_order n oid s
  | .filled n oid => did_fill_order n oid s

/-- Run a sequence of callbacks, accumulating all effects. -/
def runEvents (cfg : StratConfig) (s : StratState) :
    List Event → StratState × List Action
  | [] => (s, [])
  | e :: es =>
    let r1 := step cfg s e
    let r2 := runEvents cfg r1.1 es
    (r2.1, r1.2 ++ r2.2)

/-- The first-tick initialization leaves `delay_timestamp` unchanged. -/
theorem initExec_delay_timestamp (cfg : StratConfig) (env : TickEnv)
    (s : StratState) :
    (initExec cfg env s).delay_timestamp = s.delay_timestamp := by
  unfold initExec; split <;> rfl

/-- The first-tick initialization leaves `create_timestamp` unchanged. -/
theorem initExec_create_timestamp (cfg : StratConfig) (env : TickEnv)
    (s : StratState) :
    (initExec cfg env s).create_timestamp = s.create_timestamp := by
  unfold initExec; split <;> rfl

/-- The first-tick initialization leaves `order_filled` unchanged. -/
theorem initExec_order_filled (cfg : StratConfig) (env : TickEnv)
    (s : StratState) :
    (initExec cfg env s).order_filled = s.order_filled := by
  unfold initExec; split <;> rfl

/-- The function `place_order` never emits an `EXECUTED` CSV row. -/
theorem executed_notin_place_order (cfg : StratConfig) (conn : Connector)
    (now_ms : ℤ) (oid : String) (b : Bool) (t : ℤ) (o : String) :
    Action.csvWrite t o OrderState.EXECUTED.pyname ∉
      place_order cfg conn now_ms oid b := by
  intro h
  simp only [place_order, send_order_to_exchange] at h
  split at h
  · simp only [List.mem_cons, List.not_mem_nil, or_false] at h
    rcases h with h | h
    · unfold sendAction at h
      split at h <;> simp at h
    · split at h <;> simp [OrderState.pyname] at h
  · simp at h

/-- The function `cancel_all_orders` never emits an `EXECUTED` CSV row. -/
theorem executed_notin_cancel_all (n : ℤ) (os : List ActiveOrder)
    (t : ℤ) (o : String) :
    Action.csvWrite t o OrderState.EXECUTED.pyname ∉
      cancel_all_orders n os := by
  intro h
  simp only [cancel_all_orders, List.mem_flatMap] at h
  obtain ⟨a, _, ha⟩ := h
  simp only [List.mem_cons, List.not_mem_nil, or_false] at ha
  rcases ha with ha | ha <;> simp [OrderState.pyname] at ha

/-- The function `on_tick` never emits an `EXECUTED` CSV row. -/
theorem executed_notin_on_tick (cfg : StratConfig) (env : TickEnv)
    (s : StratState) (t : ℤ) (o : String) :
    Action.csvWrite t o OrderState.EXECUTED.pyname ∉ (on_tick cfg env s).2 := by
  simp only [on_tick]
  split_ifs
  · simp
  · exact executed_notin_cancel_all _ _ _ _
  · exact executed_notin_place_order _ _ _ _ _ _ _
  · exact executed_notin_place_order _ _ _ _ _ _ _
  · simp

/-- The function `cancel_all_orders` never submits an order. -/
theorem send_notin_cancel_all (n : ℤ) (os : List ActiveOrder)
    (c : OrderCandidate) :
    Action.sendBuy c ∉ cancel_all_orders n os ∧
    Action.sendSell c ∉ cancel_all_orders n os := by
  constructor <;>
  · intro h
    simp only [cancel_all_orders, List.mem_flatMap] at h
    obtain ⟨a, _, ha⟩ := h
    simp only [List.mem_cons, List.not_mem_nil, or_false] at ha
    rcases ha with ha | ha <;> simp at ha

/-- The function `place_order` never cancels an order. -/
theorem cancel_notin_place_order (cfg : StratConfig) (conn : Connector)
    (now_ms : ℤ) (oid : String) (b : Bool) (p i : String) :
    Action.cancelOrder p i ∉ place_order cfg conn now_ms oid b := by
  intro h
  simp only [place_order, send_order_to_exchange] at h
  split at h
  · simp only [List.mem_cons, List.not_mem_nil, or_false] at h
    rcases h with h | h
    · unfold sendAction at h
      split at h <;> simp at h
    · simp at h
  · simp at h

/-- Inside the delay window `on_tick` only performs the first-tick
initialization. -/
theorem on_tick_delay_branch (cfg : StratConfig) (env : TickEnv)
    (s : StratState) (h : env.current_timestamp < s.delay_timestamp) :
    on_tick cfg env s = (initExec cfg env s, []) := by
  have h1 : env.current_timestamp < (initExec cfg env s).delay_timestamp := by
    rw [initExec_delay_timestamp]; exact h
  simp [on_tick, h1]

/-- Outside the delay window, with active orders present, `on_tick`
cancels them all, sets a new delay window, and does nothing else. -/
theorem on_tick_cancel_branch (cfg : StratConfig) (env : TickEnv)
    (s : StratState) (h : ¬ env.current_timestamp < s.delay_timestamp)
    (ha : env.active_orders ≠ []) :
    on_tick cfg env s =
      ({ initExec cfg env s with
          delay_timestamp := env.current_timestamp + cfg.delay },
       cancel_all_orders env.now_ms env.active_orders) := by
  have h1 : ¬ env.current_timestamp < (initExec cfg env s).delay_timestamp := by
    rw [initExec_delay_timestamp]; exact h
  simp [on_tick, h1, ha]

/-- When the market-order branch condition holds, `on_tick` resets
`order_filled` and places a market order. -/
theorem on_tick_market_branch (cfg : StratConfig) (env : TickEnv)
    (s : StratState) (h : marketBranchTaken cfg env s) :
    on_tick cfg env s =
      ({ initExec cfg env s with
          delay_timestamp := env.current_timestamp + cfg.delay,
          execute_timestamp := env.current_timestamp + cfg.execute_interval,
          order_filled := false },
       place_order cfg env.conn env.now_ms env.new_order_id false) := by
  obtain ⟨h1, h2, h3, h4⟩ := h
  simp [on_tick, h1, h2, h3, h4]

/-- Unless the market-order branch is taken, `on_tick` leaves
`order_filled` unchanged. -/
theorem on_tick_preserves_flag (cfg : StratConfig) (env : TickEnv)
    (s : StratState) (h : ¬ marketBranchTaken cfg env s) :
    (on_tick cfg env s).1.order_filled = s.order_filled := by
  simp only [on_tick]
  split_ifs with c1 c2 c3 c4
  · exact initExec_order_filled cfg env s
  · exact initExec_order_filled cfg env s
  · exact absurd ⟨c1, not_not.mp (fun hne => c2 hne), c3.1, c3.2⟩ h
  · exact initExec_order_filled cfg env s
  · exact initExec_order_filled cfg env s

/-- A single callback never emits an `EXECUTED` CSV row once
`order_filled` is set, and leaves the flag set unless the callback is a
tick whose market-order branch runs. -/
theorem step_keeps_flag_and_no_fill_row (cfg : StratConfig) (s : StratState)
    (e : Event) (hs : s.order_filled = true)
    (hnm : ∀ env, e = Event.tick env → ¬ marketBranchTaken cfg env s) :
    (step cfg s e).1.order_filled = true ∧
    (∀ t o, Action.csvWrite t o OrderState.EXECUTED.pyname ∉ (step cfg s e).2) := by
  cases e with
  | tick env =>
    refine ⟨?_, ?_⟩
    · have := on_tick_preserves_flag cfg env s (hnm env rfl)
      simpa [step, hs] using this
    · intro t o
      exact executed_notin_on_tick cfg env s t o
  | createdBuy n oid =>
    exact ⟨hs, by intro t o h; simp [step, did_create_buy_order,
      OrderState.pyname] at h⟩
  | createdSell n oid =>
    exact ⟨hs, by intro t o h; simp [step, did_create_sell_order,
      OrderState.pyname] at h⟩
  | cancelled n oid =>
    exact ⟨hs, by intro t o h; simp [step, did_cancel_order,
      OrderState.pyname] at h⟩
  | filled n oid =>
    refine ⟨?_, ?_⟩
    · simp [step, did_fill_order, hs]
    · intro t o h
      simp [step, did_fill_order, hs] at h

/-- Along any callback sequence containing no tick whose market-order
branch could run, a set `order_filled` flag stays set and no `EXECUTED`
row is ever written. -/
theorem runEvents_no_fill_row (cfg : StratConfig) (es : List Event) :
    ∀ s : StratState, s.order_filled = true →
      (∀ env s2, Event.tick env ∈ es → ¬ marketBranchTaken cfg env s2) →
      (runEvents cfg s es).1.order_filled = true ∧
      (∀ t o, Action.csvWrite t o OrderState.EXECUTED.pyname
        ∉ (runEvents cfg s es).2) := by
  induction es with
  | nil =>
    intro s hs _
    exact ⟨hs, by intro t o h; simp [runEvents] at h⟩
  | cons e es ih =>
    intro s hs hnm
    have hstep := step_keeps_flag_and_no_fill_row cfg s e hs
      (fun env he => hnm env s (by simp [he]))
    have ihh := ih (step cfg s e).1 hstep.1
      (fun env s2 hmem => hnm env s2 (by simp [hmem]))
    refine ⟨?_, ?_⟩
    · simpa [runEvents] using ihh.1
    · intro t o h
      simp only [runEvents, List.mem_append] at h
      rcases h with h | h
      · exact hstep.2 t o h
      · exact ihh.2 t o h

/-- C4: the first `save_to_csv` call on a path where no file exists
creates the file containing the header row followed by exactly one data
row; a call on an existing file appends exactly one data row, repeating no
header and rewriting or deleting no existing line; hence two successive
calls starting from a fresh path (with any two timestamps, in particular
distinct ones, for the same identifier) yield the header followed by two
independent data rows. -/
theorem C4_save_to_csv_append_only (t1 t2 : ℤ) (i s1 s2 : String)
    (lines : List CsvLine) :
    save_to_csv none t1 i s1
      = [CsvLine.headerLine, CsvLine.dataRow t1 i s1] ∧
    save_to_csv (some lines) t2 i s2
      = lines ++ [CsvLine.dataRow t2 i s2] ∧
    (save_to_csv (some lines) t2 i s2).countP isHeader
      = lines.countP isHeader ∧
    save_to_csv (some (save_to_csv none t1 i s1)) t2 i s2
      = [CsvLine.headerLine, CsvLine.dataRow t1 i s1,
         CsvLine.dataRow t2 i s2] := by
  refine ⟨rfl, rfl, ?_, rfl⟩
  simp [save_to_csv, List.countP_append, isHeader]

/-- C7: when the budget checker adjusts the candidate's amount to exactly
zero, `place_order` sends nothing and raises nothing — its only effect is
a single informational log line; when the adjusted amount is non-zero, it
sends the adjusted candidate (via `self.buy`/`self.sell`). -/
theorem C7_place_order_budget_check (cfg : StratConfig) (conn : Connector)
    (now_ms : ℤ) (oid : String) (is_maker : Bool) :
    ((conn.adjust_candidate (order_candidate cfg conn is_maker)).amount = 0 →
      place_order cfg conn now_ms oid is_maker
        = [Action.logInfo "Not enough funds or amount is below threshold"]) ∧
    ((conn.adjust_candidate (order_candidate cfg conn is_maker)).amount ≠ 0 →
      place_order cfg conn now_ms oid is_maker
        = send_order_to_exchange now_ms oid
            (conn.adjust_candidate (order_candidate cfg conn is_maker)) ∧
      sendAction (conn.adjust_candidate (order_candidate cfg conn is_maker))
        ∈ place_order cfg conn now_ms oid is_maker) := by
  constructor
  · intro h
    simp [place_order, h]
  · intro h
    have he : place_order cfg conn now_ms oid is_maker
        = send_order_to_exchange now_ms oid
            (conn.adjust_candidate (order_candidate cfg conn is_maker)) := by
      simp [place_order, h]
    refine ⟨he, ?_⟩
    rw [he]
    simp [send_order_to_exchange]

/-- A connector whose budget checker zeroes every candidate (insufficient
funds). -/
def connAdjustZero : Connector :=
  { price_bid := 1, price_ask := 1, base_balance := 0, quote_balance := 0,
    adjust_candidate := fun c => { c with amount := 0 } }

/-- A connector whose budget checker grants every candidate one unit. -/
def connAdjustOne : Connector :=
  { price_bid := 1, price_ask := 1, base_balance := 0, quote_balance := 0,
    adjust_candidate := fun c => { c with amount := 1 } }

/-- Closed witness for C7: one zero-adjusted call that only logs, and one
non-zero-adjusted call that sends the adjusted candidate. -/
theorem C7_witness :
    place_order defaultConfig connAdjustZero 5 "HBOT-1" true
      = [Action.logInfo "Not enough funds or amount is below threshold"] ∧
    (place_order defaultConfig connAdjustOne 5 "HBOT-1" true
      = send_order_to_exchange 5 "HBOT-1"
          (connAdjustOne.adjust_candidate
            (order_candidate defaultConfig connAdjustOne true)) ∧
     sendAction (connAdjustOne.adjust_candidate
          (order_candidate defaultConfig connAdjustOne true))
        ∈ place_order defaultConfig connAdjustOne 5 "HBOT-1" true) :=
  ⟨(C7_place_order_budget_check defaultConfig connAdjustZero 5 "HBOT-1"
      true).1 rfl,
   (C7_place_order_budget_check defaultConfig connAdjustOne 5 "HBOT-1"
      true).2 (by decide)⟩

/-- C8: `get_order_side` returns BUY exactly when the base balance valued
in quote units at the bid price is strictly below the quote balance, and
SELL otherwise — in particular SELL when the two valuations are equal,
since the strict comparison then fails. -/
theorem C8_get_order_side_balance_comparison (conn : Connector) :
    (get_order_side conn = TradeType.BUY ↔
      conn.base_balance * conn.price_bid < conn.quote_balance) ∧
    (get_order_side conn = TradeType.SELL ↔
      ¬ conn.base_balance * conn.price_bid < conn.quote_balance) := by
  simp only [get_order_side]
  split_ifs with h <;> simp [h]

/-- C9: the first-fill suppression is a single global flag, not a
per-order one.  Once any `did_fill_order` call has written an `EXECUTED`
row (setting `order_filled`), every later `did_fill_order` call — for any
order identifier whatsoever — writes no row and has no effect; along any
callback sequence in which no tick takes the market-order branch the flag
stays set and no `EXECUTED` row is written; and the market-order branch of
`on_tick` (the branch that calls `place_order(is_maker=False)`) is the
only transition of the whole system that resets the flag to false. -/
theorem C9_global_fill_suppression (cfg : StratConfig) (s : StratState)
    (n : ℤ) (oid : String) :
    (s.order_filled = true →
      ∀ (n2 : ℤ) (oid2 : String), did_fill_order n2 oid2 s = (s, [])) ∧
    (s.order_filled = false →
      did_fill_order n oid s
        = ({ s with order_filled := true },
           [Action.csvWrite n oid OrderState.EXECUTED.pyname])) ∧
    (∀ e : Event, s.order_filled = true →
      (step cfg s e).1.order_filled = false →
      ∃ env, e = Event.tick env ∧ marketBranchTaken cfg env s) ∧
    (∀ env : TickEnv, marketBranchTaken cfg env s →
      (on_tick cfg env s).1.order_filled = false ∧
      (on_tick cfg env s).2
        = place_order cfg env.conn env.now_ms env.new_order_id false) ∧
    (∀ es : List Event, s.order_filled = true →
      (∀ env s2, Event.tick env ∈ es → ¬ marketBranchTaken cfg env s2) →
      (runEvents cfg s es).1.order_filled = true ∧
      (∀ (t : ℤ) (o : String),
        Action.csvWrite t o OrderState.EXECUTED.pyname
          ∉ (runEvents cfg s es).2)) := by
  refine ⟨?_, ?_, ?_, ?_, ?_⟩
  · intro hf n2 oid2
    simp [did_fill_order, hf]
  · intro hf
    simp [did_fill_order, hf]
  · intro e hf hr
    cases e with
    | tick env =>
      refine ⟨env, rfl, ?_⟩
      by_contra hm
      have hp := on_tick_preserves_flag cfg env s hm
      simp only [step] at hr
      rw [hr] at hp
      rw [hf] at hp
      exact Bool.false_ne_true hp
    | createdBuy n2 oid2 => simp [step, did_create_buy_order, hf] at hr
    | createdSell n2 oid2 => simp [step, did_create_sell_order, hf] at hr
    | cancelled n2 oid2 => simp [step, did_cancel_order, hf] at hr
    | filled n2 oid2 => simp [step, did_fill_order, hf] at hr
  · intro env hm
    rw [on_tick_market_branch cfg env s hm]
    exact ⟨rfl, rfl⟩
  · intro es hf hnm
    exact runEvents_no_fill_row cfg es s hf hnm

/-- Closed witness for C9: with the flag set, fills for other order ids
(`HBOT-2`, `HBOT-3`) write nothing; with the flag clear, a fill writes the
`EXECUTED` row. -/
theorem C9_witness :
    (∀ (n2 : ℤ) (oid2 : String),
      did_fill_order n2 oid2 { initialState with order_filled := true }
        = ({ initialState with order_filled := true }, [])) ∧
    (did_fill_order 5 "HBOT-1" initialState
      = ({ initialState with order_filled := true },
         [Action.csvWrite 5 "HBOT-1" OrderState.EXECUTED.pyname])) ∧
    ((runEvents defaultConfig { initialState with order_filled := true }
        [Event.filled 6 "HBOT-2", Event.filled 7 "HBOT-3"]).1.order_filled
          = true ∧
     (∀ (t : ℤ) (o : String),
       Action.csvWrite t o OrderState.EXECUTED.pyname
         ∉ (runEvents defaultConfig { initialState with order_filled := true }
             [Event.filled 6 "HBOT-2", Event.filled 7 "HBOT-3"]).2)) :=
  ⟨(C9_global_fill_suppression defaultConfig
      { initialState with order_filled := true } 5 "HBOT-1").1 rfl,
   (C9_global_fill_suppression defaultConfig initialState 5 "HBOT-1").2.1 rfl,
   (C9_global_fill_suppression defaultConfig
      { initialState with order_filled := true } 5 "HBOT-1").2.2.2.2
     [Event.filled 6 "HBOT-2", Event.filled 7 "HBOT-3"] rfl
     (by intro env s2 h; simp at h)⟩

/-- C10: a tick inside the delay window does nothing beyond the first-tick
initialization of `execute_timestamp`; a tick outside the delay window
that finds active orders logs a `PENDING_CANCEL` row and a cancel for each
of them, sets a new delay window, and submits no order; and no single tick
ever both submits and cancels orders. -/
theorem C10_no_order_in_delay_or_cancel_tick (cfg : StratConfig)
    (env : TickEnv) (s : StratState) :
    (env.current_timestamp < s.delay_timestamp →
      on_tick cfg env s = (initExec cfg env s, [])) ∧
    (¬ env.current_timestamp < s.delay_timestamp →
      env.active_orders ≠ [] →
      on_tick cfg env s
        = ({ initExec cfg env s with
              delay_timestamp := env.current_timestamp + cfg.delay },
           cancel_all_orders env.now_ms env.active_orders) ∧
      (∀ o ∈ env.active_orders,
        Action.csvWrite env.now_ms o.client_order_id
            OrderState.PENDING_CANCEL.pyname ∈ (on_tick cfg env s).2 ∧
        Action.cancelOrder o.trading_pair o.client_order_id
            ∈ (on_tick cfg env s).2) ∧
      (∀ c : OrderCandidate,
        Action.sendBuy c ∉ (on_tick cfg env s).2 ∧
        Action.sendSell c ∉ (on_tick cfg env s).2)) ∧
    (∀ (c : OrderCandidate) (p i : String),
      ¬ ((Action.sendBuy c ∈ (on_tick cfg env s).2 ∨
          Action.sendSell c ∈ (on_tick cfg env s).2) ∧
         Action.cancelOrder p i ∈ (on_tick cfg env s).2)) := by
  refine ⟨?_, ?_, ?_⟩
  · exact on_tick_delay_branch cfg env s
  · intro h ha
    have he := on_tick_cancel_branch cfg env s h ha
    refine ⟨he, ?_, ?_⟩
    · intro o ho
      rw [he]
      constructor <;>
      · simp only [cancel_all_orders, List.mem_flatMap]
        exact ⟨o, ho, by simp⟩
    · intro c
      rw [he]
      exact send_notin_cancel_all env.now_ms env.active_orders c
  · intro c p i h
    obtain ⟨hsend, hcancel⟩ := h
    simp only [on_tick] at hsend hcancel
    split_ifs at hsend hcancel
    · rcases hsend with h1 | h1 <;> simp at h1
    · rcases hsend with h1 | h1
      · exact (send_notin_cancel_all env.now_ms env.active_orders c).1 h1
      · exact (send_notin_cancel_all env.now_ms env.active_orders c).2 h1
    · exact cancel_notin_place_order cfg env.conn env.now_ms
        env.new_order_id false p i hcancel
    · exact cancel_notin_place_order cfg env.conn env.now_ms
        env.new_order_id true p i hcancel
    · rcases hsend with h1 | h1 <;> simp at h1

/-- A neutral connector for the witnesses: unit prices, zero balances, and
an identity budget checker. -/
def connInert : Connector :=
  { price_bid := 1, price_ask := 1, base_balance := 0, quote_balance := 0,
    adjust_candidate := fun c => c }

/-- A tick environment with no active orders. -/
def envQuiet : TickEnv :=
  { current_timestamp := 0, now_ms := 5, active_orders := [],
    conn := connInert, new_order_id := "HBOT-1" }

/-- A tick environment with one active order. -/
def envActive : TickEnv :=
  { current_timestamp := 0, now_ms := 6,
    active_orders :=
      [{ client_order_id := "HBOT-0", trading_pair := "BNB-ETH" }],
    conn := connInert, new_order_id := "HBOT-2" }

/-- Closed witness for C10: a tick inside the delay window does nothing;
a tick that finds an active order cancels it and submits nothing. -/
theorem C10_witness :
    (on_tick defaultConfig envQuiet
        { initialState with delay_timestamp := 10 }
      = (initExec defaultConfig envQuiet
          { initialState with delay_timestamp := 10 }, [])) ∧
    (on_tick defaultConfig envActive initialState
      = ({ initExec defaultConfig envActive initialState with
            delay_timestamp :=
              envActive.current_timestamp + defaultConfig.delay },
         cancel_all_orders envActive.now_ms envActive.active_orders) ∧
     (∀ o ∈ envActive.active_orders,
       Action.csvWrite envActive.now_ms o.client_order_id
           OrderState.PENDING_CANCEL.pyname
         ∈ (on_tick defaultConfig envActive initialState).2 ∧
       Action.cancelOrder o.trading_pair o.client_order_id
         ∈ (on_tick defaultConfig envActive initialState).2) ∧
     (∀ c : OrderCandidate,
       Action.sendBuy c ∉ (on_tick defaultConfig envActive initialState).2 ∧
       Action.sendSell c
         ∉ (on_tick defaultConfig envActive initialState).2)) :=
  ⟨(C10_no_order_in_delay_or_cancel_tick defaultConfig envQuiet
      { initialState with delay_timestamp := 10 }).1 (by decide),
   (C10_no_order_in_delay_or_cancel_tick defaultConfig envActive
      initialState).2.1 (by decide) (by decide)⟩

end LatencyTest

namespace PingUrl

/-- Loop invariant of the sampling loop: over any index list, the number of
GETs issued grows by one per iteration (failures do not abort the loop),
the collected times grow by one per successful attempt, and the console
gains one error line per failed attempt and one progress line per
successful attempt. -/
theorem pingLoop_counts (attempt : ℕ → AttemptResult) (n : ℕ)
    (is : List ℕ) : ∀ acc : LoopAcc,
    ((is.foldl (pingIteration attempt n) acc).gets = acc.gets + is.length) ∧
    ((is.foldl (pingIteration attempt n) acc).times.length
      = acc.times.length + is.countP (fun i => isSuccess (attempt i))) ∧
    ((is.foldl (pingIteration attempt n) acc).output.countP isError
      = acc.output.countP isError
        + is.countP (fun i => !(isSuccess (attempt i)))) ∧
    ((is.foldl (pingIteration attempt n) acc).output.countP isProgress
      = acc.output.countP isProgress
        + is.countP (fun i => isSuccess (attempt i))) := by
  induction is with
  | nil => intro acc; simp
  | cons i is ih =>
    intro acc
    have h := ih (pingIteration attempt n acc i)
    rcases hi : attempt i with msg | t <;>
      simp [pingIteration, hi, List.countP_cons, isError, isProgress,
        isSuccess] at h ⊢ <;>
      omega

/-- If every attempt in the index list succeeds with duration `d i`, the
loop appends exactly the durations `d i` in order. -/
theorem pingLoop_times_all_success (attempt : ℕ → AttemptResult) (n : ℕ)
    (d : ℕ → ℚ) (is : List ℕ) (hall : ∀ i ∈ is, attempt i = .success (d i)) :
    ∀ acc : LoopAcc,
      (is.foldl (pingIteration attempt n) acc).times = acc.times ++ is.map d := by
  induction is with
  | nil => intro acc; simp
  | cons i is ih =>
    intro acc
    have hi := hall i (by simp)
    have h := ih (fun j hj => hall j (by simp [hj])) (pingIteration attempt n acc i)
    simp [pingIteration, hi] at h ⊢
    simp [h]

/-- The value `ts.foldl min t` (Python's `min` over a nonempty list) is an element
of the list. -/
theorem foldl_min_mem (t : ℚ) (ts : List ℚ) : ts.foldl min t ∈ t :: ts := by
  induction ts generalizing t with
  | nil => simp
  | cons a ts ih =>
    simp only [List.foldl_cons]
    rcases min_choice t a with h1 | h1 <;> rw [h1]
    · have h := ih t
      simp only [List.mem_cons] at h ⊢
      tauto
    · have h := ih a
      simp only [List.mem_cons] at h ⊢
      tauto

/-- The value `ts.foldl min t` is a lower bound of the list. -/
theorem foldl_min_le (t : ℚ) (ts : List ℚ) : ∀ x ∈ t :: ts, ts.foldl min t ≤ x := by
  induction ts generalizing t with
  | nil => intro x hx; simp at hx; simp [hx]
  | cons a ts ih =>
    intro x hx
    simp only [List.foldl_cons]
    have hhead : ts.foldl min (min t a) ≤ min t a :=
      ih (min t a) (min t a) (by simp)
    simp only [List.mem_cons] at hx
    rcases hx with rfl | rfl | hx
    · exact le_trans hhead (min_le_left _ _)
    · exact le_trans hhead (min_le_right _ _)
    · exact ih (min t a) x (by simp [hx])

/-- The value `ts.foldl max t` (Python's `max` over a nonempty list) is an element
of the list. -/
theorem foldl_max_mem (t : ℚ) (ts : List ℚ) : ts.foldl max t ∈ t :: ts := by
  induction ts generalizing t with
  | nil => simp
  | cons a ts ih =>
    simp only [List.foldl_cons]
    rcases max_choice t a with h1 | h1 <;> rw [h1]
    · have h := ih t
      simp only [List.mem_cons] at h ⊢
      tauto
    · have h := ih a
      simp only [List.mem_cons] at h ⊢
      tauto

/-- The value `ts.foldl max t` is an upper bound of the list. -/
theorem le_foldl_max (t : ℚ) (ts : List ℚ) : ∀ x ∈ t :: ts, x ≤ ts.foldl max t := by
  induction ts generalizing t with
  | nil => intro x hx; simp at hx; simp [hx]
  | cons a ts ih =>
    intro x hx
    simp only [List.foldl_cons]
    have hhead : max t a ≤ ts.foldl max (max t a) :=
      ih (max t a) (max t a) (by simp)
    simp only [List.mem_cons] at hx
    rcases hx with rfl | rfl | hx
    · exact le_trans (le_max_left _ _) hhead
    · exact le_trans (le_max_right _ _) hhead
    · exact ih (max t a) x (by simp [hx])

/-- On nonempty data Python's `statistics.median` returns the statistical
median (middle of the sorted data, or the mean of the two middles). -/
theorem pymedian_ok (data : List ℚ) (h : data ≠ []) :
    pymedian data = .ok (specMedian data) := by
  unfold pymedian specMedian
  have hlen : data.length ≠ 0 := by simpa using h
  simp only [hlen, if_false]
  split <;> rfl

/-- On a nonempty list of times, `print_statistics` reports the arithmetic
mean, the statistical median, and the least and greatest element. -/
theorem print_statistics_spec (times : List ℚ) (url : String) (n : ℕ)
    (h : times ≠ []) :
    ∃ s : Stats, print_statistics times url n = .ok s ∧
      s.url = url ∧ s.n = n ∧
      s.average_time = times.sum / (times.length : ℚ) ∧
      s.median_time = specMedian times ∧
      s.min_time ∈ times ∧ (∀ x ∈ times, s.min_time ≤ x) ∧
      s.max_time ∈ times ∧ (∀ x ∈ times, x ≤ s.max_time) := by
  cases times with
  | nil => exact absurd rfl h
  | cons t ts =>
    refine ⟨⟨url, n, (t :: ts).sum / ((t :: ts).length : ℚ), specMedian (t :: ts),
      ts.foldl min t, ts.foldl max t⟩, ?_, rfl, rfl, rfl, rfl,
      foldl_min_mem t ts, foldl_min_le t ts, foldl_max_mem t ts,
      le_foldl_max t ts⟩
    simp only [print_statistics]
    rw [pymedian_ok (t :: ts) (by simp)]

end PingUrl

namespace PingUrl

/-- C1: the spec requires that a fully-failed batch (empty list of response
times) must not crash with a division-by-zero or empty-sequence error and
must print a "no data" result.  The code violates this: `print_statistics`
evaluates `sum(times) / len(times)` first, which on the empty list divides
by zero and raises `ZeroDivisionError` — there is no "no successful
samples" path at all.  This theorem evaluates the code at the failing
input. -/
theorem C1_print_statistics_empty_raises_zero_division :
    print_statistics [] "https://api.kucoin.com/api/v1/symbols" 10 =
      .error "ZeroDivisionError: division by zero" := rfl

/-- C2: for every attempt count `n > 0` and every target, the sampling
loop issues at most `n` GETs (in fact exactly `n`: failures do not abort
the loop and the remaining attempts still run), returns a list whose
length is between 0 and `n` inclusive (it equals the number of successful
attempts), and prints one error line per failed attempt, which contributes
no element to the returned list. -/
theorem C2_run_batch_bounds (attempt : ℕ → AttemptResult) (n : ℕ)
    (_hn : 0 < n) :
    (get_response_times_using_time attempt n).gets ≤ n ∧
    (get_response_times_using_time attempt n).gets = n ∧
    (get_response_times_using_time attempt n).times.length ≤ n ∧
    (get_response_times_using_time attempt n).times.length
      = (List.range n).countP (fun i => isSuccess (attempt i)) ∧
    (get_response_times_using_time attempt n).output.countP isError
      = (List.range n).countP (fun i => !(isSuccess (attempt i))) := by
  have h := pingLoop_counts attempt n (List.range n) ⟨[], [], 0⟩
  simp only [get_response_times_using_time]
  simp only [List.length_range, List.length_nil, List.countP_nil,
    Nat.zero_add, Nat.add_zero, zero_add, add_zero] at h
  obtain ⟨h1, h2, h3, h4⟩ := h
  have hle : (List.range n).countP (fun i => isSuccess (attempt i)) ≤ n := by
    have := List.countP_le_length
      (p := fun i => isSuccess (attempt i)) (l := List.range n)
    simpa using this
  exact ⟨by omega, by omega, by omega, by omega, by omega⟩

/-- Closed witness for C2 at `n = 1` with the always-failing network. -/
theorem C2_witness :
    (get_response_times_using_time alwaysFails 1).gets ≤ 1 ∧
    (get_response_times_using_time alwaysFails 1).gets = 1 ∧
    (get_response_times_using_time alwaysFails 1).times.length ≤ 1 ∧
    (get_response_times_using_time alwaysFails 1).times.length
      = (List.range 1).countP (fun i => isSuccess (alwaysFails i)) ∧
    (get_response_times_using_time alwaysFails 1).output.countP isError
      = (List.range 1).countP (fun i => !(isSuccess (alwaysFails i))) :=
  C2_run_batch_bounds alwaysFails 1 (by decide)

/-- C3: if all `n` attempts succeed with measured durations `d 0 .. d (n-1)`,
the collected list is exactly those durations in order, and the printed
statistics satisfy: the average is the arithmetic mean (the sum divided by
`n`), the median is the statistical median, and the minimum and maximum
are the least and greatest of the durations.  The model uses exact
rationals, so the equalities hold exactly (hence within any floating-point
tolerance). -/
theorem C3_full_success_statistics (attempt : ℕ → AttemptResult)
    (url : String) (n : ℕ) (d : ℕ → ℚ) (hn : 0 < n)
    (hall : ∀ i, i < n → attempt i = .success (d i)) :
    (get_response_times_using_time attempt n).times = (List.range n).map d ∧
    ∃ s : Stats,
      print_statistics ((List.range n).map d) url n = .ok s ∧
      s.average_time = ((List.range n).map d).sum / (n : ℚ) ∧
      s.median_time = specMedian ((List.range n).map d) ∧
      s.min_time ∈ (List.range n).map d ∧
      (∀ x ∈ (List.range n).map d, s.min_time ≤ x) ∧
      s.max_time ∈ (List.range n).map d ∧
      (∀ x ∈ (List.range n).map d, x ≤ s.max_time) := by
  have htimes : (get_response_times_using_time attempt n).times
      = (List.range n).map d := by
    have h := pingLoop_times_all_success attempt n d (List.range n)
      (fun i hi => hall i (List.mem_range.mp hi)) ⟨[], [], 0⟩
    simpa [get_response_times_using_time] using h
  refine ⟨htimes, ?_⟩
  have hlen : ((List.range n).map d).length = n := by simp
  have hne : (List.range n).map d ≠ [] := by
    intro hemp
    rw [hemp] at hlen
    simp at hlen
    omega
  obtain ⟨s, hs, _, _, havg, hmed, hminmem, hminle, hmaxmem, hmaxle⟩ :=
    print_statistics_spec ((List.range n).map d) url n hne
  rw [hlen] at havg
  exact ⟨s, hs, havg, hmed, hminmem, hminle, hmaxmem, hmaxle⟩

/-- The always-succeeding network used in witnesses: every GET returns
after exactly 2 ms. -/
def alwaysSucceeds2 : ℕ → AttemptResult := fun _ => .success 2

/-- Closed witness for C3 at `n = 1` with constant duration 2 ms. -/
theorem C3_witness :
    (get_response_times_using_time alwaysSucceeds2 1).times
      = (List.range 1).map (fun _ => (2 : ℚ)) ∧
    ∃ s : Stats,
      print_statistics ((List.range 1).map (fun _ => (2 : ℚ)))
        "https://example.com" 1 = .ok s ∧
      s.average_time = ((List.range 1).map (fun _ => (2 : ℚ))).sum / (1 : ℚ) ∧
      s.median_time = specMedian ((List.range 1).map (fun _ => (2 : ℚ))) ∧
      s.min_time ∈ (List.range 1).map (fun _ => (2 : ℚ)) ∧
      (∀ x ∈ (List.range 1).map (fun _ => (2 : ℚ)), s.min_time ≤ x) ∧
      s.max_time ∈ (List.range 1).map (fun _ => (2 : ℚ)) ∧
      (∀ x ∈ (List.range 1).map (fun _ => (2 : ℚ)), x ≤ s.max_time) :=
  C3_full_success_statistics alwaysSucceeds2 "https://example.com" 1
    (fun _ => (2 : ℚ)) (by decide) (fun i _ => rfl)

/-- C5 counterexample: with a single failing attempt the loop makes one
attempt (one GET) but prints zero progress lines, because the `continue`
in the except-branch skips the progress print.  This refutes "the number
of progress lines printed equals the number of attempts made, regardless
of whether each attempt succeeded or failed". -/
theorem C5_counterexample :
    (get_response_times_using_time alwaysFails 1).gets = 1 ∧
    (get_response_times_using_time alwaysFails 1).output.countP isProgress = 0 ∧
    ¬ (get_response_times_using_time alwaysFails 1).output.countP isProgress
        = (get_response_times_using_time alwaysFails 1).gets := by
  refine ⟨rfl, rfl, ?_⟩
  intro h
  rw [show (get_response_times_using_time alwaysFails 1).output.countP
      isProgress = 0 from rfl,
    show (get_response_times_using_time alwaysFails 1).gets = 1 from rfl] at h
  exact Nat.zero_ne_one h

/-- C5 amended: a progress percentage line is printed after each
*successful* attempt; the number of progress lines printed equals the
number of successful attempts (equivalently, the length of the returned
list), not the number of attempts made — failed attempts print an error
line and skip the progress line. -/
theorem C5_amended_progress_per_success (attempt : ℕ → AttemptResult)
    (n : ℕ) :
    (get_response_times_using_time attempt n).output.countP isProgress
      = (List.range n).countP (fun i => isSuccess (attempt i)) ∧
    (get_response_times_using_time attempt n).output.countP isProgress
      = (get_response_times_using_time attempt n).times.length := by
  have h := pingLoop_counts attempt n (List.range n) ⟨[], [], 0⟩
  simp only [get_response_times_using_time]
  simp only [List.length_range, List.length_nil, List.countP_nil,
    Nat.zero_add, Nat.add_zero, zero_add, add_zero] at h
  obtain ⟨h1, h2, h3, h4⟩ := h
  exact ⟨h4, by omega⟩

/-- C6: a command-line invocation whose argument count is not exactly one
positional URL prints the usage text and exits with status 1 (non-zero)
without issuing any request; an invocation with exactly one URL argument
prints no usage text, does not exit early, and proceeds to sample that
URL (issuing its `N = 10` GET requests). -/
theorem C6_argument_check (attempt : ℕ → AttemptResult) (args : List String) :
    (args.length ≠ 1 →
      pymain attempt args =
        { usagePrinted := true, exitCode := some 1, gets := 0,
          sampledUrl := none, report := none }) ∧
    (∀ url, args = [url] →
      (pymain attempt args).usagePrinted = false ∧
      (pymain attempt args).exitCode = none ∧
      (pymain attempt args).sampledUrl = some url ∧
      (pymain attempt args).gets = 10) := by
  constructor
  · intro h
    have h2 : 1 + args.length ≠ 2 := by omega
    simp [pymain, h2]
  · rintro url rfl
    have hg : (get_response_times_using_time attempt 10).gets = 10 := by
      have h := (pingLoop_counts attempt 10 (List.range 10) ⟨[], [], 0⟩).1
      simpa [get_response_times_using_time] using h
    simp [pymain, hg]

/-- Closed witness for C6: zero arguments exit with status 1 and no
request; one URL argument proceeds to sample it. -/
theorem C6_witness :
    (pymain alwaysFails [] =
      { usagePrinted := true, exitCode := some 1, gets := 0,
        sampledUrl := none, report := none }) ∧
    ((pymain alwaysFails ["https://example.com"]).usagePrinted = false ∧
     (pymain alwaysFails ["https://example.com"]).exitCode = none ∧
     (pymain alwaysFails ["https://example.com"]).sampledUrl
        = some "https://example.com" ∧
     (pymain alwaysFails ["https://example.com"]).gets = 10) :=
  ⟨(C6_argument_check alwaysFails []).1 (by decide),
   (C6_argument_check alwaysFails ["https://example.com"]).2
     "https://example.com" rfl⟩

end PingUrl


